import Mathlib

/-!
# Shallow embedding of the QMC5883LCompass driver

This file embeds the signal-processing core of `QMC5883LCompass.cpp` /
`QMC5883LCompass.h` (a 3-axis magnetometer driver) and proves properties of it:
calibration derivation and application, temporal smoothing (basic and
advanced), the azimuth post-processing and the 16-sector bearing lookup.

Modelling conventions:

* C `int` / `long` values are modelled as `Int`, `byte` / unsigned values as
  `Nat`.  Machine overflow is made explicit with `% 2 ^ w` where it matters.
* The float and double state of the driver (calibration offsets and scales, the
  magnetic declination) is modelled with exact rationals `ℚ`.  Where the source
  performs a float computation whose operands are machine integers (the
  smoothing averages, the bearing quotient) the computation is embedded as
  exact integer arithmetic, with the translation justified at the definition:
  for the integer ranges the driver produces (16-bit raw samples, sums of at
  most ten of them, azimuth angles), IEEE single/double arithmetic on these
  quotients is exact enough that truncation/rounding of the float result agrees
  with truncation/rounding of the exact rational.
* The I2C bus is a parameter: `read` takes the transmission-end error code and
  the six data bytes the bus would deliver; `calibrate` takes the list of
  per-iteration bus inputs (the millisecond clock only decides how many
  iterations run, so the list length stands for the session duration).
-/

namespace QMC5883L

/-- The C `round` function (round half away from zero) of the exact quotient `t / n`, for
a positive denominator `n`.  In the source this appears as
`(int)round((float)t / (float)n)`; for `0 ≤ t` it equals `⌊t/n + 1/2⌋`, which
is the Euclidean division `(2*t + n) / (2*n)`, and for `t < 0` it is the
mirror image. -/
def croundDiv (t n : Int) : Int :=
  if 0 ≤ t then (2 * t + n) / (2 * n) else -((2 * (-t) + n) / (2 * n))

/-- The C `round` function (round half away from zero) on an exact rational, used for the
float expression `round((raw - offset) * scale)` in `_applyCalibration`. -/
def croundQ (q : ℚ) : Int :=
  if 0 ≤ q then ⌊q + 1 / 2⌋ else ⌈q - 1 / 2⌉

/-- Truncation toward zero, the C `(int)` cast applied to a float value. -/
def ctrunc (q : ℚ) : Int :=
  if 0 ≤ q then ⌊q⌋ else ⌈q⌉

/-- The C truncating `%` with modulus 360 (`(int)heading % 360` in
`getAzimuth`): the remainder has the sign of the dividend. -/
def tmod360 (a : Int) : Int :=
  if 0 ≤ a then a % 360 else -((-a) % 360)

/-- Reassemble a signed 16-bit sample from two bus bytes:
`(int)(int16_t)(wire->read() | wire->read() << 8)` in `read`. -/
def int16OfBytes (lo hi : Nat) : Int :=
  let u := (lo % 256) ||| ((hi % 256) <<< 8)
  if u < 32768 then (u : Int) else (u : Int) - 65536

/-! ## Smoothing engine (`_smoothing`, lines 405-436)

The source keeps `int _vHistory[10][3]`, `long _vTotals[3]`, `int _vSmooth[3]`
and a shared write cursor `int _vScan`.  The loop body for axis `i` touches
only the `i`-slices of these arrays (plus the shared, axis-independent cursor
and step count), so the state is modelled as three per-axis slices plus the
cursor. -/

/-- The axis-`i` slice of the smoothing state: the ten-slot history column
`_vHistory[·][i]`, the running sum `_vTotals[i]` and the output
`_vSmooth[i]`. -/
structure AxisState where
  hist : List Int
  total : Int
  smooth : Int

/-- The advanced-mode scan for the index of the maximal history entry:
`max = 0; for (j = 0; j < bound; j++) max = (hist[j] > hist[max]) ? j : max;`
(lines 419-422, with `bound = _smoothSteps - 1`). -/
def scanIdxMax (hist : List Int) (bound : Nat) : Nat :=
  (List.range bound).foldl (fun m j => if hist.getD j 0 > hist.getD m 0 then j else m) 0

/-- The advanced-mode scan for the index of the minimal history entry
(lines 424-427). -/
def scanIdxMin (hist : List Int) (bound : Nat) : Nat :=
  (List.range bound).foldl (fun m j => if hist.getD j 0 < hist.getD m 0 then j else m) 0

/-- Body of the per-axis loop of `_smoothing` (lines 411-432): conditionally
evict (`if (_vTotals[i] != 0) _vTotals[i] -= _vHistory[_vScan][i]`), write the
new calibrated value into the ring slot, add it back to the total, then
produce the smoothed output; `scan` is the already-wrapped cursor and `v` is
`_vCalibrated[i]`.  In advanced mode the divisor is the float
`(float)_smoothSteps - 2`, i.e. `(steps : Int) - 2`. -/
def smoothingAxis (steps : Nat) (adv : Bool) (scan : Nat) (v : Int) (s : AxisState) :
    AxisState :=
  let total0 := if s.total ≠ 0 then s.total - s.hist.getD scan 0 else s.total
  let hist1 := s.hist.set scan v
  let total1 := total0 + hist1.getD scan 0
  if adv then
    let mx := scanIdxMax hist1 (steps - 1)
    let mn := scanIdxMin hist1 (steps - 1)
    { hist := hist1, total := total1,
      smooth := croundDiv (total1 - (hist1.getD mx 0 + hist1.getD mn 0)) ((steps : Int) - 2) }
  else
    { hist := hist1, total := total1, smooth := croundDiv total1 (steps : Int) }

/-- The full smoothing state: one slice per axis plus the shared write cursor
`_vScan`. -/
structure SmoothState where
  ax : AxisState
  ay : AxisState
  az : AxisState
  scan : Nat

/-- One call of `_smoothing` (lines 405-436) on the calibrated triple `cal`:
wrap the cursor (`if (_vScan > _smoothSteps - 1) _vScan = 0;`, evaluated in
`int` arithmetic since `_smoothSteps` is a promoted `byte`), run the loop body
on each axis, then advance the cursor. -/
def smoothing (steps : Nat) (adv : Bool) (cal : Int × Int × Int) (s : SmoothState) :
    SmoothState :=
  let sc : Nat := if (s.scan : Int) > (steps : Int) - 1 then 0 else s.scan
  { ax := smoothingAxis steps adv sc cal.1 s.ax
    ay := smoothingAxis steps adv sc cal.2.1 s.ay
    az := smoothingAxis steps adv sc cal.2.2 s.az
    scan := sc + 1 }

/-- The zero-initialized axis slice: the history column all zero (the premise
of the smoothing claims; in C++ `_vHistory` is formally uninitialized), the
total `0` (`long _vTotals[3] = {0,0,0}`) and the output `0`
(`int _vSmooth[3] = {0,0,0}`). -/
def initAxis : AxisState :=
  { hist := List.replicate 10 0, total := 0, smooth := 0 }

/-- The zero-initialized smoothing state (`_vScan = 0`). -/
def initSmooth : SmoothState :=
  { ax := initAxis, ay := initAxis, az := initAxis, scan := 0 }

/-- Feed a sequence of calibrated samples through the smoothing engine, one
`_smoothing` call per sample. -/
def runSmoothing (steps : Nat) (adv : Bool) (inputs : List (Int × Int × Int))
    (s : SmoothState) : SmoothState :=
  inputs.foldl (fun st v => smoothing steps adv v st) s

/-! ## Driver state (`QMC5883LCompass.h`, lines 34-79) and operations -/

/-- The driver instance state.  Field defaults are the C++ member
initializers; `_vCalibrated` is formally uninitialized in C++ and modelled as
zero.  The smoothing arrays live in `smoothState`. -/
structure Compass where
  autoCalibrate : Bool := false
  magneticDeclinationDegrees : ℚ := 0
  smoothUse : Bool := false
  smoothSteps : Nat := 5
  smoothAdvanced : Bool := false
  addr : Nat := 0x0D
  vRaw : Int × Int × Int := (0, 0, 0)
  vCalibrated : Int × Int × Int := (0, 0, 0)
  smoothState : SmoothState := initSmooth
  offset : ℚ × ℚ × ℚ := (0, 0, 0)
  scale : ℚ × ℚ × ℚ := (1, 1, 1)
  minX : Int := 65000
  minY : Int := 65000
  minZ : Int := 65000
  maxX : Int := -65000
  maxY : Int := -65000
  maxZ : Int := -65000

/-- A freshly constructed driver instance. -/
def initCompass : Compass := {}

/-- Indexed access into an axis triple (the C arrays `_offset`, `_scale`,
`_vCalibrated`, ... are indexed 0..2). -/
def tripleGet (t : α × α × α) : Fin 3 → α
  | 0 => t.1
  | 1 => t.2.1
  | 2 => t.2.2

/-- Source `setAutocalibrate` (lines 62-64). -/
def setAutocalibrate (b : Bool) (c : Compass) : Compass :=
  { c with autoCalibrate := b }

/-- Source `setADDR` (lines 97-99): store the I2C address byte. -/
def setADDR (b : Nat) (c : Compass) : Compass :=
  { c with addr := b % 256 }

/-- Source `setMagneticDeclination` (lines 141-143):
`_magneticDeclinationDegrees = (float)degrees + (float)minutes / 60;`
(`minutes` is a `uint8_t`). -/
def setMagneticDeclination (degrees : Int) (minutes : Nat) (c : Compass) : Compass :=
  { c with magneticDeclinationDegrees := (degrees : ℚ) + (minutes % 256 : ℚ) / 60 }

/-- Source `setSmoothing` (lines 158-162): enable smoothing, clamp the `byte` step
count to at most 10, record the mode. -/
def setSmoothing (steps : Nat) (adv : Bool) (c : Compass) : Compass :=
  { c with smoothUse := true,
           smoothSteps := if steps % 256 > 10 then 10 else steps % 256,
           smoothAdvanced := adv }

/-- Source `setCalibrationOffsets` (lines 305-309). -/
def setCalibrationOffsets (xo yo zo : ℚ) (c : Compass) : Compass :=
  { c with offset := (xo, yo, zo) }

/-- Source `setCalibrationScales` (lines 311-315). -/
def setCalibrationScales (xs ys zs : ℚ) (c : Compass) : Compass :=
  { c with scale := (xs, ys, zs) }

/-- Source `getCalibrationOffset` (lines 317-319). -/
def getCalibrationOffset (c : Compass) (i : Fin 3) : ℚ :=
  tripleGet c.offset i

/-- Source `getCalibrationScale` (lines 321-323). -/
def getCalibrationScale (c : Compass) (i : Fin 3) : ℚ :=
  tripleGet c.scale i

/-- Source `setCalibration` (lines 278-303): convert the six `int` bounds to float,
derive the offsets (note the `z_min_f * z_max_f` product on the z axis) and
the per-axis half-deltas, average the deltas and store the per-axis scales. -/
def setCalibration (x_min x_max y_min y_max z_min z_max : Int) (c : Compass) : Compass :=
  let x_min_f : ℚ := x_min
  let x_max_f : ℚ := x_max
  let y_min_f : ℚ := y_min
  let y_max_f : ℚ := y_max
  let z_min_f : ℚ := z_min
  let z_max_f : ℚ := z_max
  let c1 := setCalibrationOffsets
    ((x_min_f + x_max_f) / 2)
    ((y_min_f + y_max_f) / 2)
    ((z_min_f * z_max_f) / 2) c
  let x_avg_delta := (x_max_f - x_min_f) / 2
  let y_avg_delta := (y_max_f - y_min_f) / 2
  let z_avg_delta := (z_max_f - z_min_f) / 2
  let avg_delta := (x_avg_delta + y_avg_delta + z_avg_delta) / 3
  setCalibrationScales
    (avg_delta / x_avg_delta)
    (avg_delta / y_avg_delta)
    (avg_delta / z_avg_delta) c1

/-- Source `clearCalibration` (lines 325-328): identity calibration. -/
def clearCalibration (c : Compass) : Compass :=
  setCalibrationScales 1 1 1 (setCalibrationOffsets 0 0 0 c)

/-- Source `_applyCalibration` (lines 380-384):
`_vCalibrated[i] = (int)round((_vRaw[i] - _offset[i]) * _scale[i]);`. -/
def applyCalibration (c : Compass) : Compass :=
  { c with vCalibrated :=
      (croundQ (((c.vRaw.1 : ℚ) - c.offset.1) * c.scale.1),
       croundQ (((c.vRaw.2.1 : ℚ) - c.offset.2.1) * c.scale.2.1),
       croundQ (((c.vRaw.2.2 : ℚ) - c.offset.2.2) * c.scale.2.2)) }

/-- Source `_get` (lines 481-486): the smoothed value when smoothing is enabled,
else the calibrated value. -/
def get (c : Compass) (i : Fin 3) : Int :=
  if c.smoothUse then
    tripleGet (c.smoothState.ax.smooth, c.smoothState.ay.smooth, c.smoothState.az.smooth) i
  else
    tripleGet c.vCalibrated i

/-- Source `getX` (lines 446-448). -/
def getX (c : Compass) : Int := get c 0

/-- Source `getY` (lines 458-460). -/
def getY (c : Compass) : Int := get c 1

/-- Source `getZ` (lines 470-472). -/
def getZ (c : Compass) : Int := get c 2

/-- Source `_applyCalibrationIfNecessary` (lines 231-266): fold a fresh sample into
the running min/max per axis; when any extremum moved, re-derive the
calibration from the updated extrema and report `true`. -/
def applyCalibrationIfNecessary (x y z : Int) (c : Compass) : Compass × Bool :=
  let c1 := { c with
    minX := if x < c.minX then x else c.minX,
    maxX := if x > c.maxX then x else c.maxX,
    minY := if y < c.minY then y else c.minY,
    maxY := if y > c.maxY then y else c.maxY,
    minZ := if z < c.minZ then z else c.minZ,
    maxZ := if z > c.maxZ then z else c.maxZ }
  if x < c.minX ∨ x > c.maxX ∨ y < c.minY ∨ y > c.maxY ∨ z < c.minZ ∨ z > c.maxZ then
    (setCalibration c1.minX c1.maxX c1.minY c1.maxY c1.minZ c1.maxZ c1, true)
  else
    (c1, false)

/-- The bus inputs one `read` consumes: the error code returned by
`endTransmission` and the six data bytes a successful 6-byte burst delivers
(low byte then high byte per axis). -/
structure ReadInput where
  err : Nat
  xlo : Nat
  xhi : Nat
  ylo : Nat
  yhi : Nat
  zlo : Nat
  zhi : Nat

/-- Source `read` (lines 336-365).  On a nonzero transmission-end code the body is
skipped and `foundNewValue` stays `false`; otherwise decode the three 16-bit
samples, optionally fold them into the auto-calibration extrema, store the
raw triple, apply calibration, and (when enabled) run one smoothing step. -/
def read (inp : ReadInput) (c : Compass) : Compass × Bool :=
  if inp.err ≠ 0 then (c, false)
  else
    let x := int16OfBytes inp.xlo inp.xhi
    let y := int16OfBytes inp.ylo inp.yhi
    let z := int16OfBytes inp.zlo inp.zhi
    let acr := if c.autoCalibrate then applyCalibrationIfNecessary x y z c else (c, false)
    let c2 := { acr.1 with vRaw := (x, y, z) }
    let c3 := applyCalibration c2
    let c4 :=
      if c3.smoothUse then
        { c3 with smoothState :=
            smoothing c3.smoothSteps c3.smoothAdvanced c3.vCalibrated c3.smoothState }
      else c3
    (c4, acr.2)

/-- One iteration of the `calibrate` polling loop (lines 181-224), state
effects only: `read()`, then fold the fresh `getX/getY/getZ` values into the
session min/max fields.  The progress computation and the callback do not
touch driver state and are not modelled. -/
def calibrateIteration (inp : ReadInput) (c : Compass) : Compass :=
  let c1 := (read inp c).1
  let x := getX c1
  let y := getY c1
  let z := getZ c1
  { c1 with
    minX := if x < c1.minX then x else c1.minX,
    maxX := if x > c1.maxX then x else c1.maxX,
    minY := if y < c1.minY then y else c1.minY,
    maxY := if y > c1.maxY then y else c1.maxY,
    minZ := if z < c1.minZ then z else c1.minZ,
    maxZ := if z > c1.maxZ then z else c1.maxZ }

/-- Source `calibrate` (lines 164-229), state effects: clear the calibration, seed
the session min/max from the current axis values, run one polling iteration
per element of `samples` (the millisecond clock only decides how many
iterations run, so the list length stands for the duration), then derive the
calibration from the final extrema. -/
def calibrate (samples : List ReadInput) (c : Compass) : Compass :=
  let c1 := clearCalibration c
  let c2 := { c1 with
    minX := getX c1, maxX := getX c1,
    minY := getY c1, maxY := getY c1,
    minZ := getZ c1, maxZ := getZ c1 }
  let c3 := samples.foldl (fun st inp => calibrateIteration inp st) c2
  setCalibration c3.minX c3.maxX c3.minY c3.maxY c3.minZ c3.maxZ c3

/-- The elapsed-time budget of `calibrate` (lines 174-176):
`if (seconds == 0) seconds = 10000;` then
`unsigned long totalMillis = seconds * 1000;`, the product taken in 32-bit
`unsigned int` arithmetic.  (On AVR targets `unsigned int` is 16 bits and
the product is reduced even further, mod 2^16.) -/
def totalMillisOf (seconds : Nat) : Nat :=
  let s := if seconds = 0 then 10000 else seconds
  s * 1000 % 2 ^ 32

/-- Source `getAzimuth` (lines 498-502) after the trigonometry.  The source computes
`float heading = atan2(getY(), getX()) * 180.0 / PI;`, a real number in
`[-180, 180]`; the transcendental part is not embedded, so `headingDeg`
stands for that term and ranges over all rationals (a superset of every value
`atan2` can produce).  The source then adds the declination and returns
`(int)heading % 360`: truncation toward zero followed by the C truncating
remainder. -/
def getAzimuth (headingDeg : ℚ) (c : Compass) : Int :=
  tmod360 (ctrunc (headingDeg + c.magneticDeclinationDegrees))

/-- Source `getBearing` (lines 517-523).  The source computes
`unsigned long a = (azimuth > -0.5) ? azimuth/22.5 : (azimuth+360)/22.5;`
(for an integer argument, `azimuth > -0.5` is `azimuth ≥ 0`): the double
quotient is truncated by the conversion to `unsigned long`, so the later
fractional-part test `r = a - (int)a; r >= .5` always sees `r = 0` and the
function returns `floor(a)` cast to `byte`.  For integer `azimuth ≥ -360`
the selected quotient is nonnegative, where truncation agrees with floor
division and `trunc(azimuth/22.5) = (2*azimuth)/45` exactly (the double
division incurs no error large enough to cross an integer, since the exact
quotient is a multiple of 1/45).  For `azimuth < -360` the double-to-unsigned
conversion is undefined behaviour in C++; the theorems below stay inside the
defined domain.  The final `byte` cast reduces mod 256. -/
def getBearing (azimuth : Int) : Nat :=
  let a : Int := if azimuth ≥ 0 then 2 * azimuth / 45 else 2 * (azimuth + 360) / 45
  a.toNat % 256

/-- The round-half-up rule the spec prescribes for `getBearing` ("sector =
`round(azimuth/22.5)` with round-half-up").  Spec-side definition, compared
against the source behaviour below. -/
def roundHalfUp (q : ℚ) : Int := ⌊q + 1 / 2⌋

/-- Invariant of one axis slice of the smoothing state: ten history slots,
every entry nonnegative, and the running total `_vTotals[i]` equal to the sum
of the first `steps` ring-buffer slots. -/
def AxisInv (steps : Nat) (s : AxisState) : Prop :=
  s.hist.length = 10 ∧ (∀ v ∈ s.hist, 0 ≤ v) ∧ s.total = (s.hist.take steps).sum

/-- The three-axis smoothing invariant. -/
def SmoothInv (steps : Nat) (s : SmoothState) : Prop :=
  AxisInv steps s.ax ∧ AxisInv steps s.ay ∧ AxisInv steps s.az

/-! ## General lemmas about the rounding helpers -/

/-- The C `round` function is the identity on values that are already integers. -/
theorem croundQ_intCast (n : Int) : croundQ (n : ℚ) = n := by
  unfold croundQ
  split
  · rw [show ((n : ℚ) + 1 / 2) = (n : ℚ) + (1 / 2 : ℚ) from rfl, Int.floor_int_add]
    norm_num
  · rw [show ((n : ℚ) - 1 / 2) = (-(1 / 2) : ℚ) + (n : ℚ) by ring,
      show (-(1 / 2) : ℚ) + (n : ℚ) = (-(1 / 2) : ℚ) + (n : ℤ) from rfl,
      Int.ceil_add_int]
    norm_num

end QMC5883L

namespace QMC5883L

/-! ## Claim theorems -/

/-- C2 (code bug evidence): `calibrate(0, cb)` does not get a 10000 ms
budget.  `if (seconds == 0) seconds = 10000;` assigns the default to the
*seconds* variable, which is then multiplied by 1000 again, so the blocking
session budget is 10,000,000 ms (10000 seconds ≈ 2.8 hours). -/
theorem calibrate_zero_duration_budget :
    totalMillisOf 0 = 10000000 ∧ totalMillisOf 0 ≠ 10000 := by decide

/-- C8 (code bug evidence): `getBearing 0` selects the north entry of the
16-entry `_bearings` table, but `getBearing 360` returns 16, one past the
table (`getDirection` would read out of bounds); nothing wraps it to 0,
contrary to the doc comment of the function itself ("return the a value of 0-15"). -/
theorem getBearing_zero_and_360 :
    getBearing 0 = 0 ∧ getBearing 360 = 16 ∧ ¬ getBearing 360 ≤ 15 := by decide

/-- C4 counterexample: with `steps = 5` in advanced mode, feeding
10, 20, 30, 40, 50 does *not* produce 30. -/
theorem advanced_smoothing_fixed_seq_counterexample :
    ¬ (runSmoothing 5 true [(10, 10, 10), (20, 20, 20), (30, 30, 30), (40, 40, 40), (50, 50, 50)]
        initSmooth).ax.smooth = 30 := by decide

/-- C4 (amended): with `steps = 5` in advanced mode, feeding 10, 20, 30, 40,
50 yields the smoothed value 33: the max/min scan runs only over slots
`0 .. steps-2`, so at the fifth step it never sees slot 4 (holding 50) and
picks max 40 and min 10, giving `round((150 - (40 + 10)) / 3) = 33`. -/
theorem advanced_smoothing_fixed_seq :
    (runSmoothing 5 true [(10, 10, 10), (20, 20, 20), (30, 30, 30), (40, 40, 40), (50, 50, 50)]
        initSmooth).ax.smooth = 33 := by decide

/-- C9: whatever real heading the trigonometry produces and whatever
declination is configured, `getAzimuth` lands strictly between -360 and 360:
the truncating `%` keeps the sign of its dividend, so the result is not
normalized to `[0, 360)` but its magnitude is below 360. -/
theorem getAzimuth_range (headingDeg : ℚ) (c : Compass) :
    -360 < getAzimuth headingDeg c ∧ getAzimuth headingDeg c < 360 := by
  unfold getAzimuth tmod360
  split <;> omega

/-- C7: after `clearCalibration`, `_applyCalibration` maps every raw sample
to itself on every axis: with offset 0 and scale 1 the rounded product is the
raw integer unchanged. -/
theorem clearCalibration_identity (c : Compass) (raw : Int × Int × Int) :
    (applyCalibration { clearCalibration c with vRaw := raw }).vCalibrated = raw := by
  obtain ⟨x, y, z⟩ := raw
  simp [applyCalibration, clearCalibration, setCalibrationScales, setCalibrationOffsets,
    croundQ_intCast]

/-- C6: a nonzero transmission-end error code makes `read` return `false`
and leave the whole driver state unchanged — raw, calibrated and smoothed
values, the smoothing state, the calibration model and the auto-calibration
extrema all keep their prior values. -/
theorem read_transport_error (inp : ReadInput) (c : Compass) (h : inp.err ≠ 0) :
    read inp c = (c, false) := by
  unfold read
  rw [if_pos h]

/-- Witness for `read_transport_error` at error code 1 on a fresh driver. -/
theorem read_transport_error_witness :
    ({ err := 1, xlo := 0, xhi := 0, ylo := 0, yhi := 0, zlo := 0, zhi := 0 } : ReadInput).err ≠ 0
    ∧ read { err := 1, xlo := 0, xhi := 0, ylo := 0, yhi := 0, zlo := 0, zhi := 0 } initCompass
        = (initCompass, false) :=
  ⟨by decide, read_transport_error _ initCompass (by decide)⟩

/-- C1 counterexample: at azimuth 20 the round-half-up rule of the spec gives
sector `round(20/22.5) = round(0.888...) = 1`, but the code returns 0: the
quotient is stored in `unsigned long` before the fractional-part test, so it
has already been truncated. -/
theorem getBearing_not_roundHalfUp :
    ¬ ((getBearing 20 : Int) = roundHalfUp ((20 : ℚ) / 22.5)) := by
  have h1 : getBearing 20 = 0 := by decide
  have h2 : roundHalfUp ((20 : ℚ) / 22.5) = 1 := by
    unfold roundHalfUp
    rw [show ((20 : ℚ) / 22.5 + 1 / 2) = ((25 : ℤ) : ℚ) / ((18 : ℕ) : ℚ) by norm_num,
      Rat.floor_intCast_div_natCast]
    decide
  rw [h1, h2]
  decide

/-- C1 (amended): `getBearing` truncates instead of rounding half-up.  For
azimuth ≥ 0 the sector is `⌊azimuth/22.5⌋` reduced mod 256 by the `byte`
cast; for -360 ≤ azimuth < 0 (below -360 the double-to-unsigned
conversion is undefined behaviour) it is `⌊(azimuth+360)/22.5⌋`. -/
theorem getBearing_floor (azimuth : Int) :
    (0 ≤ azimuth → (getBearing azimuth : Int) = ⌊(azimuth : ℚ) / 22.5⌋ % 256) ∧
    (-360 ≤ azimuth → azimuth < 0 →
      (getBearing azimuth : Int) = ⌊((azimuth : ℚ) + 360) / 22.5⌋) := by
  constructor
  · intro h
    have hfl : ⌊(azimuth : ℚ) / 22.5⌋ = 2 * azimuth / 45 := by
      rw [show ((azimuth : ℚ) / 22.5) = ((2 * azimuth : ℤ) : ℚ) / ((45 : ℕ) : ℚ) by
        push_cast; ring]
      exact Rat.floor_intCast_div_natCast _ _
    simp only [getBearing]
    rw [if_pos h, hfl]
    omega
  · intro h1 h2
    have hfl : ⌊((azimuth : ℚ) + 360) / 22.5⌋ = 2 * (azimuth + 360) / 45 := by
      rw [show (((azimuth : ℚ) + 360) / 22.5) = ((2 * (azimuth + 360) : ℤ) : ℚ) / ((45 : ℕ) : ℚ) by
        push_cast; ring]
      exact Rat.floor_intCast_div_natCast _ _
    simp only [getBearing]
    rw [if_neg (by omega), hfl]
    omega

/-- Witness for `getBearing_floor`, exercising both branches (azimuth 20 and
azimuth -22). -/
theorem getBearing_floor_witness :
    ((0 : Int) ≤ 20 ∧ (getBearing 20 : Int) = ⌊((20 : Int) : ℚ) / 22.5⌋ % 256) ∧
    ((-360 : Int) ≤ -22 ∧ (-22 : Int) < 0 ∧
      (getBearing (-22) : Int) = ⌊(((-22 : Int) : ℚ) + 360) / 22.5⌋) :=
  ⟨⟨by decide, (getBearing_floor 20).1 (by decide)⟩,
   ⟨by decide, by decide, (getBearing_floor (-22)).2 (by decide) (by decide)⟩⟩

/-- C5: for bounds with nonzero per-axis deltas, `setCalibration` stores the
offsets `((xmin+xmax)/2, (ymin+ymax)/2, (zmin*zmax)/2)` — note the
min-times-max quirk on the z axis — and the scales `avg_delta / delta[i]`
where `delta[i] = (max[i]-min[i])/2` and `avg_delta` is the mean of the three
deltas. -/
theorem setCalibration_offsets_scales (c : Compass)
    (x_min x_max y_min y_max z_min z_max : Int)
    (_hx : x_min ≠ x_max) (_hy : y_min ≠ y_max) (_hz : z_min ≠ z_max) :
    ((setCalibration x_min x_max y_min y_max z_min z_max c).offset =
      (((x_min : ℚ) + (x_max : ℚ)) / 2, ((y_min : ℚ) + (y_max : ℚ)) / 2,
       ((z_min : ℚ) * (z_max : ℚ)) / 2)) ∧
    ((setCalibration x_min x_max y_min y_max z_min z_max c).scale =
      ((((x_max : ℚ) - (x_min : ℚ)) / 2 + ((y_max : ℚ) - (y_min : ℚ)) / 2
          + ((z_max : ℚ) - (z_min : ℚ)) / 2) / 3 / (((x_max : ℚ) - (x_min : ℚ)) / 2),
       (((x_max : ℚ) - (x_min : ℚ)) / 2 + ((y_max : ℚ) - (y_min : ℚ)) / 2
          + ((z_max : ℚ) - (z_min : ℚ)) / 2) / 3 / (((y_max : ℚ) - (y_min : ℚ)) / 2),
       (((x_max : ℚ) - (x_min : ℚ)) / 2 + ((y_max : ℚ) - (y_min : ℚ)) / 2
          + ((z_max : ℚ) - (z_min : ℚ)) / 2) / 3 / (((z_max : ℚ) - (z_min : ℚ)) / 2))) :=
  ⟨rfl, rfl⟩

/-- Witness for `setCalibration_offsets_scales` at the bounds
(0,2), (0,4), (1,3). -/
theorem setCalibration_offsets_scales_witness :
    (((0 : Int) ≠ 2 ∧ (0 : Int) ≠ 4 ∧ (1 : Int) ≠ 3)) ∧
    (((setCalibration 0 2 0 4 1 3 initCompass).offset =
      ((((0 : Int) : ℚ) + ((2 : Int) : ℚ)) / 2, (((0 : Int) : ℚ) + ((4 : Int) : ℚ)) / 2,
       (((1 : Int) : ℚ) * ((3 : Int) : ℚ)) / 2)) ∧
    ((setCalibration 0 2 0 4 1 3 initCompass).scale =
      (((((2 : Int) : ℚ) - ((0 : Int) : ℚ)) / 2 + (((4 : Int) : ℚ) - ((0 : Int) : ℚ)) / 2
          + (((3 : Int) : ℚ) - ((1 : Int) : ℚ)) / 2) / 3 / ((((2 : Int) : ℚ) - ((0 : Int) : ℚ)) / 2),
       ((((2 : Int) : ℚ) - ((0 : Int) : ℚ)) / 2 + (((4 : Int) : ℚ) - ((0 : Int) : ℚ)) / 2
          + (((3 : Int) : ℚ) - ((1 : Int) : ℚ)) / 2) / 3 / ((((4 : Int) : ℚ) - ((0 : Int) : ℚ)) / 2),
       ((((2 : Int) : ℚ) - ((0 : Int) : ℚ)) / 2 + (((4 : Int) : ℚ) - ((0 : Int) : ℚ)) / 2
          + (((3 : Int) : ℚ) - ((1 : Int) : ℚ)) / 2) / 3 / ((((3 : Int) : ℚ) - ((1 : Int) : ℚ)) / 2)))) :=
  ⟨⟨by decide, by decide, by decide⟩,
    setCalibration_offsets_scales initCompass 0 2 0 4 1 3 (by decide) (by decide) (by decide)⟩

/-! ## C10: smoothing, once enabled, stays enabled -/

/-- Setting the derived calibration touches only the offset and scale fields. -/
theorem setCalibration_smoothUse (x_min x_max y_min y_max z_min z_max : Int) (c : Compass) :
    (setCalibration x_min x_max y_min y_max z_min z_max c).smoothUse = c.smoothUse := rfl

/-- Applying calibration never touches the smoothing flag. -/
theorem applyCalibration_smoothUse (c : Compass) :
    (applyCalibration c).smoothUse = c.smoothUse := rfl

/-- Auto-calibration updates never touch the smoothing flag. -/
theorem applyCalibrationIfNecessary_smoothUse (x y z : Int) (c : Compass) :
    ((applyCalibrationIfNecessary x y z c).1).smoothUse = c.smoothUse := by
  unfold applyCalibrationIfNecessary
  dsimp only
  by_cases hcond : x < c.minX ∨ x > c.maxX ∨ y < c.minY ∨ y > c.maxY ∨ z < c.minZ ∨ z > c.maxZ
  · rw [if_pos hcond]
    dsimp only
    rw [setCalibration_smoothUse]
  · rw [if_neg hcond]

/-- Reading never touches the smoothing flag. -/
theorem read_smoothUse (inp : ReadInput) (c : Compass) :
    ((read inp c).1).smoothUse = c.smoothUse := by
  unfold read
  by_cases herr : inp.err ≠ 0
  · rw [if_pos herr]
  · rw [if_neg herr]
    dsimp only
    by_cases hauto : c.autoCalibrate = true
    · rw [if_pos hauto]
      split
      · simp only [applyCalibration_smoothUse, applyCalibrationIfNecessary_smoothUse]
      · simp only [applyCalibration_smoothUse, applyCalibrationIfNecessary_smoothUse]
    · rw [if_neg hauto]
      split
      · rfl
      · rfl

/-- One calibration-loop iteration never touches the smoothing flag. -/
theorem calibrateIteration_smoothUse (inp : ReadInput) (c : Compass) :
    (calibrateIteration inp c).smoothUse = c.smoothUse := by
  unfold calibrateIteration
  dsimp only
  rw [read_smoothUse]

/-- Folding calibration-loop iterations never touches the smoothing flag. -/
theorem foldl_calibrateIteration_smoothUse (samples : List ReadInput) (c : Compass) :
    (samples.foldl (fun st inp => calibrateIteration inp st) c).smoothUse = c.smoothUse := by
  induction samples generalizing c with
  | nil => rfl
  | cons inp rest ih => rw [List.foldl_cons, ih, calibrateIteration_smoothUse]

/-- The blocking calibration session never touches the smoothing flag. -/
theorem calibrate_smoothUse (samples : List ReadInput) (c : Compass) :
    (calibrate samples c).smoothUse = c.smoothUse := by
  unfold calibrate
  dsimp only
  rw [setCalibration_smoothUse, foldl_calibrateIteration_smoothUse]
  rfl

/-- C10: once `setSmoothing` has enabled smoothing, no public operation of
the driver resets the flag — `setSmoothing` itself, `setAutocalibrate`,
`setADDR`, `setMagneticDeclination`, the calibration setters and
`clearCalibration`, `read` and the blocking `calibrate` session all leave
`_smoothUse` true (the register-only operations `init`, `setMode`,
`setReset` touch no driver state at all) — and while the flag is set every
`getX`/`getY`/`getZ` call returns the smoothed value, never the bare
calibrated value. -/
theorem smoothUse_persists (c : Compass) (h : c.smoothUse = true)
    (steps : Nat) (adv b : Bool) (deg : Int) (mins addrB : Nat)
    (xo yo zo xs ys zs : ℚ) (x_min x_max y_min y_max z_min z_max : Int)
    (inp : ReadInput) (samples : List ReadInput) :
    (setSmoothing steps adv c).smoothUse = true ∧
    (setAutocalibrate b c).smoothUse = true ∧
    (setADDR addrB c).smoothUse = true ∧
    (setMagneticDeclination deg mins c).smoothUse = true ∧
    (setCalibrationOffsets xo yo zo c).smoothUse = true ∧
    (setCalibrationScales xs ys zs c).smoothUse = true ∧
    (setCalibration x_min x_max y_min y_max z_min z_max c).smoothUse = true ∧
    (clearCalibration c).smoothUse = true ∧
    ((read inp c).1).smoothUse = true ∧
    (calibrate samples c).smoothUse = true ∧
    getX c = c.smoothState.ax.smooth ∧
    getY c = c.smoothState.ay.smooth ∧
    getZ c = c.smoothState.az.smooth := by
  refine ⟨rfl, h, h, h, h, h, ?_, h, ?_, ?_, ?_, ?_, ?_⟩
  · rw [setCalibration_smoothUse]; exact h
  · rw [read_smoothUse]; exact h
  · rw [calibrate_smoothUse]; exact h
  · unfold getX get; rw [if_pos h]; rfl
  · unfold getY get; rw [if_pos h]; rfl
  · unfold getZ get; rw [if_pos h]; rfl

/-- Witness for `smoothUse_persists` on a driver that has just enabled
smoothing, with concrete arguments for every operation. -/
theorem smoothUse_persists_witness :
    (setSmoothing 5 false initCompass).smoothUse = true ∧
    ((setSmoothing 3 true (setSmoothing 5 false initCompass)).smoothUse = true ∧
     (setAutocalibrate true (setSmoothing 5 false initCompass)).smoothUse = true ∧
     (setADDR 13 (setSmoothing 5 false initCompass)).smoothUse = true ∧
     (setMagneticDeclination (-19) 43 (setSmoothing 5 false initCompass)).smoothUse = true ∧
     (setCalibrationOffsets 1 2 3 (setSmoothing 5 false initCompass)).smoothUse = true ∧
     (setCalibrationScales 1 1 1 (setSmoothing 5 false initCompass)).smoothUse = true ∧
     (setCalibration 0 2 0 4 1 3 (setSmoothing 5 false initCompass)).smoothUse = true ∧
     (clearCalibration (setSmoothing 5 false initCompass)).smoothUse = true ∧
     ((read { err := 0, xlo := 1, xhi := 0, ylo := 2, yhi := 0, zlo := 3, zhi := 0 }
        (setSmoothing 5 false initCompass)).1).smoothUse = true ∧
     (calibrate [{ err := 0, xlo := 1, xhi := 0, ylo := 2, yhi := 0, zlo := 3, zhi := 0 }]
        (setSmoothing 5 false initCompass)).smoothUse = true ∧
     getX (setSmoothing 5 false initCompass)
        = (setSmoothing 5 false initCompass).smoothState.ax.smooth ∧
     getY (setSmoothing 5 false initCompass)
        = (setSmoothing 5 false initCompass).smoothState.ay.smooth ∧
     getZ (setSmoothing 5 false initCompass)
        = (setSmoothing 5 false initCompass).smoothState.az.smooth) :=
  ⟨rfl, smoothUse_persists (setSmoothing 5 false initCompass) rfl 3 true true (-19) 43 13
    1 2 3 1 1 1 0 2 0 4 1 3
    { err := 0, xlo := 1, xhi := 0, ylo := 2, yhi := 0, zlo := 3, zhi := 0 }
    [{ err := 0, xlo := 1, xhi := 0, ylo := 2, yhi := 0, zlo := 3, zhi := 0 }]⟩

/-! ## C3: the running totals against the ring-buffer sums -/

/-- Writing inside the taken prefix shifts its sum by the difference between
the new value and the overwritten one. -/
theorem sum_take_set (l : List Int) (i k : Nat) (v : Int) (hik : i < k)
    (hk : k ≤ l.length) :
    ((l.set i v).take k).sum = (l.take k).sum - l.getD i 0 + v := by
  induction l generalizing i k with
  | nil => simp at hk; omega
  | cons a t ih =>
    cases i with
    | zero =>
      cases k with
      | zero => omega
      | succ k2 => simp [List.getD_cons_zero]; ring
    | succ i2 =>
      cases k with
      | zero => omega
      | succ k2 =>
        have h2 : k2 ≤ t.length := by simpa using hk
        simp only [List.set_cons_succ, List.take_succ_cons, List.sum_cons,
          List.getD_cons_succ, ih i2 k2 (by omega) h2]
        ring

/-- The `i`-th entry is among the first `k` when `i < k ≤ length`. -/
theorem getD_mem_take (l : List Int) (i k : Nat) (hik : i < k) (hk : k ≤ l.length) :
    l.getD i 0 ∈ l.take k := by
  induction l generalizing i k with
  | nil => simp at hk; omega
  | cons a t ih =>
    cases k with
    | zero => omega
    | succ k2 =>
      cases i with
      | zero => simp [List.getD_cons_zero]
      | succ i2 =>
        simp only [List.getD_cons_succ, List.take_succ_cons]
        exact List.mem_cons_of_mem a (ih i2 k2 (by omega) (by simpa using hk))

/-- Overwriting the `i`-th entry stores the new value there. -/
theorem getD_set_self (l : List Int) (i : Nat) (v : Int) (hi : i < l.length) :
    (l.set i v).getD i 0 = v := by
  induction l generalizing i with
  | nil => simp at hi
  | cons a t ih =>
    cases i with
    | zero => rfl
    | succ i2 =>
      simp only [List.set_cons_succ, List.getD_cons_succ]
      exact ih i2 (by simpa using hi)

/-- An all-nonnegative integer list with zero sum is all zero. -/
theorem eq_zero_of_mem_of_sum_eq_zero (l : List Int) (hnn : ∀ v ∈ l, 0 ≤ v)
    (hs : l.sum = 0) : ∀ v ∈ l, v = 0 := by
  induction l with
  | nil => simp
  | cons a t ih =>
    have ha : 0 ≤ a := hnn a (List.mem_cons_self a t)
    have ht : 0 ≤ t.sum := List.sum_nonneg fun v hv => hnn v (List.mem_cons_of_mem a hv)
    have hs' : a + t.sum = 0 := by simpa using hs
    intro v hv
    rcases List.mem_cons.mp hv with rfl | hv2
    · omega
    · exact ih (fun w hw => hnn w (List.mem_cons_of_mem a hw)) (by omega) v hv2

/-- Both smoothing modes write the same ring slot. -/
theorem smoothingAxis_hist (steps : Nat) (adv : Bool) (scan : Nat) (v : Int)
    (s : AxisState) :
    (smoothingAxis steps adv scan v s).hist = s.hist.set scan v := by
  cases adv <;> rfl

/-- Both smoothing modes update the total the same way: conditional eviction,
then adding back the freshly written slot. -/
theorem smoothingAxis_total (steps : Nat) (adv : Bool) (scan : Nat) (v : Int)
    (s : AxisState) :
    (smoothingAxis steps adv scan v s).total =
      (if s.total ≠ 0 then s.total - s.hist.getD scan 0 else s.total)
        + (s.hist.set scan v).getD scan 0 := by
  cases adv <;> rfl

/-- One per-axis smoothing step preserves the invariant when the incoming
calibrated value is nonnegative. -/
theorem smoothingAxis_inv (steps : Nat) (adv : Bool) (scan : Nat) (v : Int)
    (s : AxisState) (hinv : AxisInv steps s) (hv : 0 ≤ v) (hscan : scan < steps)
    (hsteps : steps ≤ 10) :
    AxisInv steps (smoothingAxis steps adv scan v s) := by
  obtain ⟨hlen, hnn, htot⟩ := hinv
  have hsl : scan < s.hist.length := by omega
  refine ⟨?_, ?_, ?_⟩
  · rw [smoothingAxis_hist, List.length_set, hlen]
  · intro w hw
    rw [smoothingAxis_hist] at hw
    rcases List.mem_or_eq_of_mem_set hw with h | rfl
    · exact hnn w h
    · exact hv
  · rw [smoothingAxis_total, smoothingAxis_hist, getD_set_self s.hist scan v hsl,
      sum_take_set s.hist scan steps v hscan (by omega)]
    by_cases h0 : s.total = 0
    · rw [if_neg (not_not_intro h0)]
      have hev : s.hist.getD scan 0 = 0 :=
        eq_zero_of_mem_of_sum_eq_zero (s.hist.take steps)
          (fun u hu => hnn u (List.mem_of_mem_take hu)) (by omega)
          _ (getD_mem_take s.hist scan steps hscan (by omega))
      omega
    · rw [if_pos h0]
      omega

/-- One `_smoothing` call preserves the three-axis invariant for a
nonnegative calibrated triple. -/
theorem smoothing_inv (steps : Nat) (adv : Bool) (cal : Int × Int × Int)
    (s : SmoothState) (h1 : 1 ≤ steps) (h10 : steps ≤ 10)
    (hc : 0 ≤ cal.1 ∧ 0 ≤ cal.2.1 ∧ 0 ≤ cal.2.2) (hinv : SmoothInv steps s) :
    SmoothInv steps (smoothing steps adv cal s) := by
  obtain ⟨hx, hy, hz⟩ := hinv
  have hsc : (if (s.scan : Int) > (steps : Int) - 1 then 0 else s.scan) < steps := by
    split <;> omega
  exact ⟨smoothingAxis_inv _ _ _ _ _ hx hc.1 hsc h10,
         smoothingAxis_inv _ _ _ _ _ hy hc.2.1 hsc h10,
         smoothingAxis_inv _ _ _ _ _ hz hc.2.2 hsc h10⟩

/-- Feeding any sequence of nonnegative calibrated samples preserves the
three-axis invariant. -/
theorem runSmoothing_inv (steps : Nat) (adv : Bool) (h1 : 1 ≤ steps) (h10 : steps ≤ 10) :
    ∀ (inputs : List (Int × Int × Int)) (s : SmoothState),
      (∀ t ∈ inputs, 0 ≤ t.1 ∧ 0 ≤ t.2.1 ∧ 0 ≤ t.2.2) → SmoothInv steps s →
      SmoothInv steps (runSmoothing steps adv inputs s) := by
  intro inputs
  induction inputs with
  | nil => intro s _ hinv; exact hinv
  | cons t rest ih =>
    intro s hnn hinv
    have hstep : runSmoothing steps adv (t :: rest) s
        = runSmoothing steps adv rest (smoothing steps adv t s) := rfl
    rw [hstep]
    exact ih (smoothing steps adv t s)
      (fun u hu => hnn u (List.mem_cons_of_mem t hu))
      (smoothing_inv steps adv t s h1 h10 (hnn t (List.mem_cons_self t rest)) hinv)

/-- The zero-initialized smoothing state satisfies the invariant. -/
theorem initSmooth_inv (steps : Nat) : SmoothInv steps initSmooth := by
  have hax : AxisInv steps initAxis := by
    refine ⟨by simp [initAxis], ?_, ?_⟩
    · intro v hv
      rw [List.eq_of_mem_replicate (show v ∈ List.replicate 10 (0 : Int) from hv)]
    · show (0 : Int) = ((List.replicate 10 (0 : Int)).take steps).sum
      rw [List.take_replicate, List.sum_replicate, smul_zero]
  exact ⟨hax, hax, hax⟩

/-- C3 counterexample: with capacity 2 and the calibrated samples 5, -5, 7
on every axis, the `_vTotals[i] != 0` guard skips the subtraction of the
evicted 5 (the total is exactly 0 at that moment), so after the third step
the total is 7 while the two ring-buffer slots hold 7 and -5, summing to 2. -/
theorem smoothing_totals_counterexample :
    ¬ ((runSmoothing 2 false [(5, 5, 5), (-5, -5, -5), (7, 7, 7)] initSmooth).ax.total
        = ((runSmoothing 2 false [(5, 5, 5), (-5, -5, -5), (7, 7, 7)]
            initSmooth).ax.hist.take 2).sum) := by
  decide

/-- C3 (amended): for every capacity in [1,10] and every sequence of
*nonnegative* calibrated samples (history buffer zero-initialized), after
each smoothing step `_vTotals[i]` equals the sum of the `capacity`-many
ring-buffer entries held for axis `i`.  (The statement quantifies over all
input sequences, hence over every prefix of a run, i.e. over the state after
each step.  Nonnegativity is what the `!= 0` eviction guard needs; with
sign-mixed samples the invariant fails, see the counterexample.) -/
theorem smoothing_totals_track_sum (steps : Nat) (adv : Bool)
    (inputs : List (Int × Int × Int)) (h1 : 1 ≤ steps) (h10 : steps ≤ 10)
    (hnn : ∀ t ∈ inputs, 0 ≤ t.1 ∧ 0 ≤ t.2.1 ∧ 0 ≤ t.2.2) :
    ((runSmoothing steps adv inputs initSmooth).ax.total
        = ((runSmoothing steps adv inputs initSmooth).ax.hist.take steps).sum) ∧
    ((runSmoothing steps adv inputs initSmooth).ay.total
        = ((runSmoothing steps adv inputs initSmooth).ay.hist.take steps).sum) ∧
    ((runSmoothing steps adv inputs initSmooth).az.total
        = ((runSmoothing steps adv inputs initSmooth).az.hist.take steps).sum) := by
  have h := runSmoothing_inv steps adv h1 h10 inputs initSmooth hnn (initSmooth_inv steps)
  exact ⟨h.1.2.2, h.2.1.2.2, h.2.2.2.2⟩

/-- Witness for `smoothing_totals_track_sum` with capacity 2 and the
nonnegative sample sequence (5,5,5), (0,1,2), (7,7,7). -/
theorem smoothing_totals_track_sum_witness :
    ((1 ≤ 2 ∧ 2 ≤ 10) ∧
      ∀ t ∈ [((5 : Int), (5 : Int), (5 : Int)), (0, 1, 2), (7, 7, 7)],
        0 ≤ t.1 ∧ 0 ≤ t.2.1 ∧ 0 ≤ t.2.2) ∧
    (((runSmoothing 2 false [(5, 5, 5), (0, 1, 2), (7, 7, 7)] initSmooth).ax.total
        = ((runSmoothing 2 false [(5, 5, 5), (0, 1, 2), (7, 7, 7)]
            initSmooth).ax.hist.take 2).sum) ∧
     ((runSmoothing 2 false [(5, 5, 5), (0, 1, 2), (7, 7, 7)] initSmooth).ay.total
        = ((runSmoothing 2 false [(5, 5, 5), (0, 1, 2), (7, 7, 7)]
            initSmooth).ay.hist.take 2).sum) ∧
     ((runSmoothing 2 false [(5, 5, 5), (0, 1, 2), (7, 7, 7)] initSmooth).az.total
        = ((runSmoothing 2 false [(5, 5, 5), (0, 1, 2), (7, 7, 7)]
            initSmooth).az.hist.take 2).sum)) :=
  ⟨⟨⟨by decide, by decide⟩, by decide⟩,
   smoothing_totals_track_sum 2 false [(5, 5, 5), (0, 1, 2), (7, 7, 7)]
     (by decide) (by decide) (by decide)⟩
